import Mathlib

/-!
Shallow embedding of `DataProcessing/sync-tiingonews.py`, a single linear
batch job that fetches a catalog of bulk news files, filters and dedupes
its rows, diffs them against the files already present in a local folder
and a hardcoded denylist, and downloads the remainder one file at a time.

Modelling conventions:
* A pandas row becomes a `CatalogRecord`; the DataFrame becomes a
  `List CatalogRecord` in response order (`set_index('id')` keeps row
  order, so the list order is the provider's response order).
* The raw `startDate` / `endDate` strings are modelled as minutes since
  the UTC epoch (`Int`); `pd.to_datetime(..., utc=True).dt.date` becomes
  floor division by the number of minutes in a day.
* Python `set` computations become membership-based list computations.
* The download loop's effects (directory creation, catalog fetch, each
  `urlretrieve` attempt, each file write, each log line) are reified into
  an explicit `Effect` trace; `urlretrieve`'s outcome is an oracle
  `net : String → DownloadResult` with `HTTPError` and any other raised
  error as the two failure cases.
-/

/-- One parsed entry of the JSON array returned by the
`tiingo/news/bulk_download` endpoint (one DataFrame row). -/
structure CatalogRecord where
  id : Int
  filename : String
  url : String
  batchType : String
  startDate : Int
  endDate : Int
deriving DecidableEq, Repr

/-- The hardcoded denylist `known_missing_dates`: the denylist of filenames. -/
def known_missing_dates : List String :=
  ["bulkfile_2017-03-11_2017-03-13.tar.gz",
   "bulkfile_2018-03-10_2018-03-12.tar.gz"]

/-- Minutes in a day, the granularity drop of `.dt.date`. -/
def minutesPerDay : Int := 1440

/-- Python `pd.to_datetime(x, utc=True).dt.date`: normalize a timestamp (minutes
since the UTC epoch) to its UTC calendar day. -/
def toUtcDay (t : Int) : Int := Int.fdiv t minutesPerDay

/-- The in-place column update
`df['startDate'] = pd.to_datetime(df['startDate'], utc=True).dt.date`
(and the same for `endDate`) applied to one row. -/
def normalizeRec (r : CatalogRecord) : CatalogRecord :=
  { r with startDate := toUtcDay r.startDate, endDate := toUtcDay r.endDate }

/-- Insert a row into a list sorted by `id` descending. -/
def insertDesc (r : CatalogRecord) : List CatalogRecord → List CatalogRecord
  | [] => [r]
  | a :: l => if a.id ≤ r.id then r :: a :: l else a :: insertDesc r l

/-- Line 26, `df.sort_index(ascending=False)`: sort the rows by `id` descending
(insertion sort; the index ids are unique, so any comparison sort yields
the same list). In the script this expression's result is discarded (line
26 assigns it to nothing), so the pipeline never uses it; it is embedded
so that the discarded expression is visible in `filterDedupe`. -/
def sortByIdDesc (l : List CatalogRecord) : List CatalogRecord :=
  l.foldr insertDesc []

/-- Line 28, `df = df[df.batchType=='incremental']`. -/
def filterIncremental (l : List CatalogRecord) : List CatalogRecord :=
  l.filter (fun r => r.batchType == "incremental")

/-- Python `~df.filename.duplicated(keep='first')` with an explicit accumulator of
filenames already seen: a row survives iff its filename did not occur in an
earlier surviving row. -/
def dedupeAux (seen : List String) : List CatalogRecord → List CatalogRecord
  | [] => []
  | r :: rs =>
    if r.filename ∈ seen then dedupeAux seen rs
    else r :: dedupeAux (r.filename :: seen) rs

/-- Line 30, `df = df[~df.filename.duplicated(keep='first')]`. -/
def dedupeKeepFirst (l : List CatalogRecord) : List CatalogRecord :=
  dedupeAux [] l

/-- The `QC_DATAFLEET_DEPLOYMENT_DATE` branch: when a target day is
present, normalize both date columns to UTC days and keep the rows with
`startDate <= @processing_date <= endDate`; when absent, leave the rows
untouched. -/
def applyDateFilter (targetDate : Option Int) (l : List CatalogRecord) :
    List CatalogRecord :=
  match targetDate with
  | none => l
  | some d =>
    (l.map normalizeRec).filter
      (fun r => decide (r.startDate ≤ d) && decide (d ≤ r.endDate))

/-- The whole Filter & Dedupe step, lines 24–38 of the script, in source
order. Line 26 calls `df.sort_index(ascending=False)` but discards the
result, which the dead `let` records. -/
def filterDedupe (catalog : List CatalogRecord) (targetDate : Option Int) :
    List CatalogRecord :=
  let df := catalog
  let _discarded := sortByIdDesc df
  let df := filterIncremental df
  let df := dedupeKeepFirst df
  applyDateFilter targetDate df

/-- Line 42, `files_to_download = list(set(df.filename) - set(present_files) -
set(known_missing_dates))`: the distinct catalog filenames that are neither
present locally nor denylisted. -/
def filesToDownload (df : List CatalogRecord) (present : List String) :
    List String :=
  ((df.map fun r => r.filename).dedup).filter
    (fun n => decide (n ∉ present) && decide (n ∉ known_missing_dates))

/-- Lines 46 and 47, `row = df[df.filename==bulk_file]` then
`url = row.url.values[0]`: the URL of
the first row whose filename matches. -/
def urlFor (df : List CatalogRecord) (name : String) : Option String :=
  (df.find? (fun r => r.filename == name)).map (fun r => r.url)

/-- Outcome of one `urlretrieve(url, destination_path)` call. `httpError`
is a raised `urllib.error.HTTPError` (the class the `except` clause
catches); `otherError` is any other raised error. -/
inductive DownloadResult
  | success
  | httpError
  | otherError
deriving DecidableEq, Repr

/-- Observable side effects of the job, in order. -/
inductive Effect
  | mkdirRawFolder
  | fetchCatalog
  | attemptDownload (url : String)
  | writeFile (name : String)
  | logNotFound (url : String)
deriving DecidableEq, Repr

/-- How a run terminates abnormally. -/
inductive JobError
  | missingApiKey
  | transferError (url : String)
deriving DecidableEq, Repr

/-- The `for bulk_file in files_to_download` loop: each iteration resolves
the URL from the catalog and calls `urlretrieve`; a raised `HTTPError` is
caught, logged (`print(f"URL {url} not found!", e)`) and the loop
continues with the next file; any other raised error propagates,
terminating the loop (and the job) with the rest of the list
unprocessed. -/
def runDownloads (net : String → DownloadResult) (df : List CatalogRecord) :
    List String → List Effect × Except JobError Unit
  | [] => ([], Except.ok ())
  | name :: rest =>
    let url := (urlFor df name).getD ""
    match net url with
    | DownloadResult.success =>
      let (es, r) := runDownloads net df rest
      (Effect.attemptDownload url :: Effect.writeFile name :: es, r)
    | DownloadResult.httpError =>
      let (es, r) := runDownloads net df rest
      (Effect.attemptDownload url :: Effect.logNotFound url :: es, r)
    | DownloadResult.otherError =>
      ([Effect.attemptDownload url], Except.error (JobError.transferError url))

/-- The environment variable read on line 12, before anything else runs. -/
def apiKeyVar : String := "TIINGO_API_KEY"

/-- The optional target-date environment variable. -/
def deploymentDateVar : String := "QC_DATAFLEET_DEPLOYMENT_DATE"

/-- The whole script as a function of its ambient inputs: the process
environment, the date parser (`datetime.strptime(..., "%Y%m%d").date()`),
the parsed catalog response, the filenames present in the raw folder, and
the network oracle. Returns the effect trace and the final outcome. Line
12 (`os.environ["TIINGO_API_KEY"]`) runs first and raises `KeyError` when
the variable is absent, before the `mkdir` on line 18 and the catalog
request on line 22. -/
def runJob (env : String → Option String) (parseDate : String → Int)
    (catalog : List CatalogRecord) (present : List String)
    (net : String → DownloadResult) : List Effect × Except JobError Unit :=
  match env apiKeyVar with
  | none => ([], Except.error JobError.missingApiKey)
  | some _key =>
    let targetDate := (env deploymentDateVar).map parseDate
    let df := filterDedupe catalog targetDate
    let toDl := filesToDownload df present
    let (des, res) := runDownloads net df toDl
    (Effect.mkdirRawFolder :: Effect.fetchCatalog :: des, res)

/-- The Filter & Dedupe step as a state transformer over the outside world
(filesystem contents and issued network requests): lines 24–38 only
transform the DataFrame, so the world passes through untouched. -/
structure World where
  files : List String
  requests : List String
deriving DecidableEq, Repr

/-- Running the Filter & Dedupe step in a world. -/
def filterDedupeRun (catalog : List CatalogRecord) (targetDate : Option Int)
    (w : World) : List CatalogRecord × World :=
  (filterDedupe catalog targetDate, w)

/-! ### Helper lemmas about the dedupe core -/

/-- Every survivor of the dedupe pass is a row of the input. -/
theorem dedupeAux_subset {seen : List String} {l : List CatalogRecord}
    {r : CatalogRecord} (h : r ∈ dedupeAux seen l) : r ∈ l := by
  induction l generalizing seen with
  | nil => simp [dedupeAux] at h
  | cons a l ih =>
    by_cases ha : a.filename ∈ seen
    · simp only [dedupeAux, if_pos ha] at h
      exact List.mem_cons_of_mem a (ih h)
    · simp only [dedupeAux, if_neg ha, List.mem_cons] at h
      rcases h with h | h
      · exact h ▸ List.mem_cons_self a l
      · exact List.mem_cons_of_mem a (ih h)

/-- Every survivor of the dedupe pass is the first row of the input whose
filename matches its own, and its filename is not in the seen
accumulator. -/
theorem dedupeAux_find? {seen : List String} {l : List CatalogRecord}
    {r : CatalogRecord} (h : r ∈ dedupeAux seen l) :
    r.filename ∉ seen ∧ l.find? (fun s => s.filename == r.filename) = some r := by
  induction l generalizing seen with
  | nil => simp [dedupeAux] at h
  | cons a l ih =>
    by_cases ha : a.filename ∈ seen
    · simp only [dedupeAux, if_pos ha] at h
      obtain ⟨hseen, hfind⟩ := ih h
      have hne : (a.filename == r.filename) = false := by
        simp only [beq_eq_false_iff_ne, ne_eq]
        intro hEq
        exact hseen (hEq ▸ ha)
      refine ⟨hseen, ?_⟩
      rw [List.find?_cons, hne]
      exact hfind
    · simp only [dedupeAux, if_neg ha, List.mem_cons] at h
      rcases h with rfl | h
      · refine ⟨ha, ?_⟩
        rw [List.find?_cons]
        simp
      · obtain ⟨hseen, hfind⟩ := ih h
        have hr_not : r.filename ≠ a.filename := by
          intro hEq
          exact hseen (by simp [hEq])
        have hne : (a.filename == r.filename) = false := by
          simp only [beq_eq_false_iff_ne, ne_eq]
          exact fun hEq => hr_not hEq.symm
        constructor
        · intro hc
          exact hseen (List.mem_cons_of_mem _ hc)
        · rw [List.find?_cons, hne]
          exact hfind

/-- The filenames of the dedupe output are pairwise distinct, and none of
them is in the seen accumulator. -/
theorem dedupeAux_nodup (seen : List String) (l : List CatalogRecord) :
    ((dedupeAux seen l).map (fun r => r.filename)).Nodup ∧
      ∀ r ∈ dedupeAux seen l, r.filename ∉ seen := by
  induction l generalizing seen with
  | nil => simp [dedupeAux]
  | cons a l ih =>
    by_cases ha : a.filename ∈ seen
    · simpa only [dedupeAux, if_pos ha] using ih seen
    · obtain ⟨hnodup, hseen⟩ := ih (a.filename :: seen)
      simp only [dedupeAux, if_neg ha, List.map_cons, List.nodup_cons]
      refine ⟨⟨?_, hnodup⟩, ?_⟩
      · intro hc
        obtain ⟨r, hr, hrEq⟩ := List.mem_map.mp hc
        exact hseen r hr (by simp [hrEq])
      · intro r hr
        rcases List.mem_cons.mp hr with rfl | hr'
        · exact ha
        · intro hc
          exact hseen r hr' (List.mem_cons_of_mem _ hc)

/-- Date normalization only touches the date fields. -/
theorem normalizeRec_filename (r : CatalogRecord) :
    (normalizeRec r).filename = r.filename := rfl

/-- Date normalization leaves the batch type unchanged. -/
theorem normalizeRec_batchType (r : CatalogRecord) :
    (normalizeRec r).batchType = r.batchType := rfl

/-- Membership in the Filter & Dedupe output comes from a surviving row of
the incremental-filtered, deduped catalog, up to date normalization. -/
theorem mem_filterDedupe {catalog : List CatalogRecord} {d : Option Int}
    {r : CatalogRecord} (h : r ∈ filterDedupe catalog d) :
    ∃ s ∈ dedupeKeepFirst (filterIncremental catalog),
      r = s ∨ r = normalizeRec s := by
  cases d with
  | none => exact ⟨r, h, Or.inl rfl⟩
  | some day =>
    simp only [filterDedupe, applyDateFilter, List.mem_filter, List.mem_map] at h
    obtain ⟨⟨s, hs, hsEq⟩, _⟩ := h
    exact ⟨s, hs, Or.inr hsEq.symm⟩

/-! ### Sample records used by closed witnesses -/

/-- The higher-identifier record of the specification's scenario. -/
def recA : CatalogRecord :=
  ⟨5, "a.tar.gz", "http://x/a", "incremental", 0, 0⟩

/-- The lower-identifier record of the specification's scenario. -/
def recOldA : CatalogRecord :=
  ⟨3, "a.tar.gz", "http://x/old-a", "incremental", 0, 0⟩

/-! ### Claim theorems -/

/-- C4: for every catalog response (and either date mode), the output of
the Filter & Dedupe step contains at most one record per distinct
filename — the list of output filenames has no duplicates. -/
theorem filterDedupe_filenames_nodup (catalog : List CatalogRecord)
    (d : Option Int) :
    ((filterDedupe catalog d).map (fun r => r.filename)).Nodup := by
  have base :=
    (dedupeAux_nodup [] (filterIncremental catalog)).1
  cases d with
  | none => exact base
  | some day =>
    have hsub :
        (((dedupeAux [] (filterIncremental catalog)).map normalizeRec).filter
            (fun r => decide (r.startDate ≤ day) && decide (day ≤ r.endDate))).Sublist
          ((dedupeAux [] (filterIncremental catalog)).map normalizeRec) :=
      List.filter_sublist _
    have hsubMap := List.Sublist.map (fun r => r.filename) hsub
    have heq :
        ((dedupeAux [] (filterIncremental catalog)).map normalizeRec).map
            (fun r => r.filename)
          = (dedupeAux [] (filterIncremental catalog)).map (fun r => r.filename) := by
      simp [List.map_map, Function.comp, normalizeRec_filename]
    rw [heq] at hsubMap
    exact List.Nodup.sublist hsubMap base

/-- C5: every record in the output of the Filter & Dedupe step has
batchType equal to "incremental". -/
theorem filterDedupe_batchType (catalog : List CatalogRecord) (d : Option Int)
    (r : CatalogRecord) (h : r ∈ filterDedupe catalog d) :
    r.batchType = "incremental" := by
  obtain ⟨s, hs, hcase⟩ := mem_filterDedupe h
  have hsIn : s ∈ filterIncremental catalog := dedupeAux_subset hs
  have hbt : s.batchType = "incremental" := by
    simp only [filterIncremental, List.mem_filter, beq_iff_eq] at hsIn
    exact hsIn.2
  rcases hcase with rfl | rfl
  · exact hbt
  · rw [normalizeRec_batchType]
    exact hbt

/-- C5 witness: the scenario record survives the step and is
incremental. -/
theorem filterDedupe_batchType_witness :
    recA ∈ filterDedupe [recA] none ∧ recA.batchType = "incremental" :=
  ⟨by decide, filterDedupe_batchType [recA] none recA (by decide)⟩

/-- C10: the record kept by dedupe for each filename is the first
occurrence, in the provider's response order, among the
batchType-incremental rows — not the record with the greatest identifier,
because the descending sort on line 26 is discarded. -/
theorem dedupe_keeps_first_occurrence (catalog : List CatalogRecord)
    (r : CatalogRecord) (h : r ∈ filterDedupe catalog none) :
    (filterIncremental catalog).find? (fun s => s.filename == r.filename)
      = some r := by
  have h' : r ∈ dedupeAux [] (filterIncremental catalog) := h
  exact (dedupeAux_find? h').2

/-- C10 witness: with the lower-identifier record first in the response,
it is the one kept. -/
theorem dedupe_keeps_first_occurrence_witness :
    recOldA ∈ filterDedupe [recOldA, recA] none ∧
      (filterIncremental [recOldA, recA]).find?
          (fun s => s.filename == recOldA.filename) = some recOldA :=
  ⟨by decide, dedupe_keeps_first_occurrence [recOldA, recA] recOldA (by decide)⟩

/-- C1 (evaluation at the failing input): when the lower-identifier
record comes first in the catalog response, the pipeline keeps it and the
download URL resolves to its URL — not to the URL of the record with the
greatest identifier — even though the discarded `sort_index` call on line
26 would have put the greatest identifier first. -/
theorem dedupe_ignores_identifier_order :
    filterDedupe [recOldA, recA] none = [recOldA] ∧
      urlFor (filterDedupe [recOldA, recA] none) "a.tar.gz"
        = some "http://x/old-a" ∧
      recOldA.id < recA.id ∧
      sortByIdDesc [recOldA, recA] = [recA, recOldA] := by decide

/-- Dedupe commutes with any row map that preserves filenames. -/
theorem dedupeAux_map (h : CatalogRecord → CatalogRecord)
    (hname : ∀ r, (h r).filename = r.filename) (seen : List String)
    (l : List CatalogRecord) :
    dedupeAux seen (l.map h) = (dedupeAux seen l).map h := by
  induction l generalizing seen with
  | nil => rfl
  | cons a l ih =>
    simp only [List.map_cons, dedupeAux, hname a]
    by_cases ha : a.filename ∈ seen
    · rw [if_pos ha, if_pos ha, ih]
    · rw [if_neg ha, if_neg ha, List.map_cons, ih]

/-- The incremental filter commutes with any row map that preserves
batch types. -/
theorem filterIncremental_map (h : CatalogRecord → CatalogRecord)
    (hbt : ∀ r, (h r).batchType = r.batchType) (l : List CatalogRecord) :
    filterIncremental (l.map h) = (filterIncremental l).map h := by
  have hp : ((fun r : CatalogRecord => r.batchType == "incremental") ∘ h)
      = (fun r : CatalogRecord => r.batchType == "incremental") := by
    funext r
    simp [Function.comp, hbt r]
  rw [filterIncremental, filterIncremental, List.filter_map, hp]

/-- C6: when a target day `d` is supplied, every record surviving the
Filter & Dedupe step satisfies `startDate ≤ d ≤ endDate` on the
UTC-normalized day fields; when no target day is supplied, rewriting the
date fields of every catalog row arbitrarily commutes with the step, so
the output is unaffected by the date fields. -/
theorem filterDedupe_date_window :
    (∀ (catalog : List CatalogRecord) (d : Int) (r : CatalogRecord),
        r ∈ filterDedupe catalog (some d) →
          r.startDate ≤ d ∧ d ≤ r.endDate) ∧
    (∀ (catalog : List CatalogRecord) (f g : CatalogRecord → Int),
        filterDedupe
            (catalog.map fun s => { s with startDate := f s, endDate := g s })
            none
          = (filterDedupe catalog none).map
              fun s => { s with startDate := f s, endDate := g s }) := by
  constructor
  · intro catalog d r h
    simp only [filterDedupe, applyDateFilter, List.mem_filter,
      Bool.and_eq_true, decide_eq_true_eq] at h
    exact h.2
  · intro catalog f g
    show dedupeKeepFirst (filterIncremental (catalog.map _)) = _
    rw [filterIncremental_map
      (fun s => { s with startDate := f s, endDate := g s }) (fun r => rfl)]
    exact dedupeAux_map
      (fun s => { s with startDate := f s, endDate := g s }) (fun r => rfl) []
      (filterIncremental catalog)

/-- C6 witness: a record covering days 10–12 survives target day 11 and
its normalized window contains 11. -/
theorem filterDedupe_date_window_witness :
    (⟨5, "a.tar.gz", "http://x/a", "incremental", 10, 12⟩ : CatalogRecord) ∈
        filterDedupe
          [⟨5, "a.tar.gz", "http://x/a", "incremental", 14400, 17280⟩]
          (some 11) ∧
      ((10 : Int) ≤ 11 ∧ (11 : Int) ≤ 12) :=
  ⟨by decide,
    filterDedupe_date_window.1
      [⟨5, "a.tar.gz", "http://x/a", "incremental", 14400, 17280⟩] 11
      ⟨5, "a.tar.gz", "http://x/a", "incremental", 10, 12⟩ (by decide)⟩

/-- C3: the Diff step's output is disjoint from the locally present
filenames and from the denylist. -/
theorem filesToDownload_disjoint (df : List CatalogRecord)
    (present : List String) (x : String)
    (hx : x ∈ filesToDownload df present) :
    x ∉ present ∧ x ∉ known_missing_dates := by
  simp only [filesToDownload, List.mem_filter, Bool.and_eq_true,
    decide_eq_true_eq] at hx
  exact hx.2

/-- C3 witness: the scenario catalog against an empty local folder. -/
theorem filesToDownload_disjoint_witness :
    "a.tar.gz" ∈ filesToDownload [recA] [] ∧
      "a.tar.gz" ∉ ([] : List String) ∧
      "a.tar.gz" ∉ known_missing_dates :=
  ⟨by decide, filesToDownload_disjoint [recA] [] "a.tar.gz" (by decide)⟩

/-- C7: if the local folder of the second run contains exactly the files
of the first run plus everything the first run's Diff step selected (a
fully successful first run), the second run's Diff step selects
nothing. -/
theorem second_run_downloads_nothing (df : List CatalogRecord)
    (present present2 : List String)
    (h : ∀ x, x ∈ present2 ↔ x ∈ present ∨ x ∈ filesToDownload df present) :
    filesToDownload df present2 = [] := by
  rw [filesToDownload, List.filter_eq_nil_iff]
  intro n hn
  by_cases hd : n ∈ known_missing_dates
  · simp [hd]
  · by_cases hp : n ∈ present
    · have hmem : n ∈ present2 := (h n).mpr (Or.inl hp)
      simp [hmem]
    · have hmem0 : n ∈ filesToDownload df present := by
        rw [filesToDownload, List.mem_filter]
        exact ⟨hn, by simp [hp, hd]⟩
      have hmem : n ∈ present2 := (h n).mpr (Or.inr hmem0)
      simp [hmem]

/-- C7 witness: after a successful run downloaded "a.tar.gz", the second
run over the same catalog selects nothing. -/
theorem second_run_downloads_nothing_witness :
    filesToDownload [recA] ["a.tar.gz"] = [] :=
  second_run_downloads_nothing [recA] [] ["a.tar.gz"]
    (by
      intro x
      have hfirst : filesToDownload [recA] [] = ["a.tar.gz"] := by decide
      rw [hfirst]
      simp)

/-- C2: in the download loop, a raised `HTTPError` for one file is caught
and logged and the loop continues with the next file, carrying the same
effects and outcome for the rest; any other raised error is not caught:
the loop stops with only this attempt recorded and the remaining files
unprocessed, terminating with a transfer error. -/
theorem downloadLoop_error_policy (net : String → DownloadResult)
    (df : List CatalogRecord) (name : String) (rest : List String) :
    (net ((urlFor df name).getD "") = DownloadResult.httpError →
      runDownloads net df (name :: rest) =
        (Effect.attemptDownload ((urlFor df name).getD "") ::
            Effect.logNotFound ((urlFor df name).getD "") ::
            (runDownloads net df rest).1,
          (runDownloads net df rest).2)) ∧
    (net ((urlFor df name).getD "") = DownloadResult.otherError →
      runDownloads net df (name :: rest) =
        ([Effect.attemptDownload ((urlFor df name).getD "")],
          Except.error (JobError.transferError ((urlFor df name).getD "")))) := by
  constructor <;> intro hnet <;> simp [runDownloads, hnet]

/-- C2 witness: a one-file loop under an always-404 network logs and
finishes; under any other network error it aborts with a transfer
error. -/
theorem downloadLoop_error_policy_witness :
    runDownloads (fun _ => DownloadResult.httpError) [recA] ["a.tar.gz"] =
      ([Effect.attemptDownload "http://x/a", Effect.logNotFound "http://x/a"],
        Except.ok ()) ∧
    runDownloads (fun _ => DownloadResult.otherError) [recA] ["a.tar.gz"] =
      ([Effect.attemptDownload "http://x/a"],
        Except.error (JobError.transferError "http://x/a")) := by
  constructor
  · have h :=
      (downloadLoop_error_policy (fun _ => DownloadResult.httpError) [recA]
        "a.tar.gz" []).1 rfl
    rw [h]
    rfl
  · have h :=
      (downloadLoop_error_policy (fun _ => DownloadResult.otherError) [recA]
        "a.tar.gz" []).2 rfl
    rw [h]
    rfl

/-- A process environment holding only the API key. -/
def envWithKey : String → Option String :=
  fun v => if v = apiKeyVar then some "k" else none

/-- C8: when the API-key variable is absent the job fails immediately
with an empty effect trace (no network request, no filesystem write);
when it is present the read succeeds and execution proceeds: the trace is
the directory creation, the catalog fetch, and then the download loop's
effects. -/
theorem apiKey_gate (env : String → Option String) (parseDate : String → Int)
    (catalog : List CatalogRecord) (present : List String)
    (net : String → DownloadResult) :
    (env apiKeyVar = none →
      runJob env parseDate catalog present net =
        ([], Except.error JobError.missingApiKey)) ∧
    (∀ k, env apiKeyVar = some k →
      runJob env parseDate catalog present net =
        (Effect.mkdirRawFolder :: Effect.fetchCatalog ::
            (runDownloads net
              (filterDedupe catalog ((env deploymentDateVar).map parseDate))
              (filesToDownload
                (filterDedupe catalog ((env deploymentDateVar).map parseDate))
                present)).1,
          (runDownloads net
            (filterDedupe catalog ((env deploymentDateVar).map parseDate))
            (filesToDownload
              (filterDedupe catalog ((env deploymentDateVar).map parseDate))
              present)).2)) := by
  constructor
  · intro henv
    simp [runJob, henv]
  · intro k henv
    simp [runJob, henv]

/-- C8 witness: with no environment the job fails at once with no
effects; with the key present it creates the folder, fetches the catalog
and downloads the scenario file. -/
theorem apiKey_gate_witness :
    runJob (fun _ => none) (fun _ => 0) [recA] []
        (fun _ => DownloadResult.success) =
      ([], Except.error JobError.missingApiKey) ∧
    runJob envWithKey (fun _ => 0) [recA] []
        (fun _ => DownloadResult.success) =
      ([Effect.mkdirRawFolder, Effect.fetchCatalog,
          Effect.attemptDownload "http://x/a", Effect.writeFile "a.tar.gz"],
        Except.ok ()) := by
  constructor
  · exact (apiKey_gate (fun _ => none) (fun _ => 0) [recA] []
      (fun _ => DownloadResult.success)).1 rfl
  · have h := (apiKey_gate envWithKey (fun _ => 0) [recA] []
      (fun _ => DownloadResult.success)).2 "k" (by decide)
    rw [h]
    rfl

/-- C9: the Filter & Dedupe step is deterministic and side-effect free:
its output does not depend on the outside world and the world it returns
is exactly the world it was given. -/
theorem filterDedupe_pure (catalog : List CatalogRecord) (d : Option Int)
    (w w' : World) :
    (filterDedupeRun catalog d w).1 = (filterDedupeRun catalog d w').1 ∧
      (filterDedupeRun catalog d w).2 = w :=
  ⟨rfl, rfl⟩
